import Mathlib

/-!
Verification development for the MARLEY compound-nucleus exit-channel core
(`ExitChannel` class hierarchy) and the `marley::Event` move semantics
(`Event.cc`), as a shallow embedding in Lean 4.

Doubles are modelled as rationals (`ℚ`); the random generator is modelled as
an explicit stream of uniform draws with a position counter, so that draw
consumption is visible in the state.  Member functions whose bodies appear in
the repository (`Event.cc`, and the inline members of the `ExitChannel`
header) are translated directly; the out-of-line `do_decay` bodies are not
part of the repository snapshot and are modelled from the specification,
as marked in the corresponding doc comments.
-/

namespace Marley

/-- PDG code for a photon (`marley_utils::PHOTON`). -/
def PHOTON : Int := 22

/-- Nuclear parity (`marley::Parity`): either +1 or -1. -/
inductive Parity where
  | plus
  | minus
deriving DecidableEq

/-- A particle record (`marley::Particle`): PDG code, four-momentum
components, and mass, as used by `Event.cc` and the exit channels. -/
structure Particle where
  pdg_code : Int
  E : ℚ
  px : ℚ
  py : ℚ
  pz : ℚ
  mass : ℚ
deriving DecidableEq

/-- A discrete nuclear level record (`marley::Level`): excitation energy,
twice the spin, and parity. -/
structure Level where
  energy : ℚ
  twoJ : Int
  pi : Parity
deriving DecidableEq

/-- An emitted-fragment record (`marley::Fragment`): PDG code and mass. -/
structure Fragment where
  get_pid : Int
  mass : ℚ
deriving DecidableEq

/-! ## marley::Event (src/src/Event.cc)

The event owns a list of initial-state and final-state particles plus the
residue excitation energy `Ex_`.  Particle ownership through raw pointers is
modelled by value lists: the move operations transfer the pointed-to particle
values and leave the source's vectors cleared. -/

/-- The event record (`marley::Event`): initial particles, final particles,
and the residue excitation energy `Ex_`. -/
structure Event where
  initial_particles_ : List Particle
  final_particles_ : List Particle
  Ex_ : ℚ
deriving DecidableEq

namespace Event

/-- Move constructor (`Event.cc` lines 62-76).  The destination copies the
source's `Ex_` and takes over its particle pointers; the body then zeroes the
source's `Ex_` and clears both of its particle vectors.  Returns
(destination, moved-from source). -/
def moveCtor (other : Event) : Event × Event :=
  let dest : Event :=
    { initial_particles_ := other.initial_particles_
      final_particles_ := other.final_particles_
      Ex_ := other.Ex_ }
  let movedFrom : Event :=
    { other with Ex_ := 0, initial_particles_ := [], final_particles_ := [] }
  (dest, movedFrom)

/-- Move assignment operator (`Event.cc` lines 102-125), for distinct
objects.  The left-hand side deletes its own particles, copies the source's
`Ex_` and takes over its particle pointers; the source's `Ex_` is zeroed and
its vectors cleared.  Returns (assigned-to event, moved-from source). -/
def moveAssign (_lhs other : Event) : Event × Event :=
  let lhs' : Event :=
    { initial_particles_ := other.initial_particles_
      final_particles_ := other.final_particles_
      Ex_ := other.Ex_ }
  let movedFrom : Event :=
    { other with Ex_ := 0, initial_particles_ := [], final_particles_ := [] }
  (lhs', movedFrom)

end Event

/-! ## Width-weighted selection

`ExitChannel::make_width_iterator` (header lines 63-72) adapts an iterator
over channels into an iterator over each channel's `width_` member, so that
the generic weighted-sampling routine reads weights through a projection view
rather than a materialized parallel array.  The selection semantics (used via
`std::discrete_distribution` through `marley::Generator`, outside this
repository snapshot) are modelled from the spec: compute cumulative weights,
draw `u` uniformly in `[0, total)`, and return the first element whose
cumulative weight exceeds `u`. -/

/-- Sum of a projected weight over a list (the cumulative total used by the
weighted sampler). -/
def sumBy {α : Type} (proj : α → ℚ) (l : List α) : ℚ :=
  (l.map proj).sum

/-- Modelled from the spec: width-weighted selection.  Reads each element's
weight through the projection `proj` (the iterator-to-member adapter) and
returns the index of the first element whose cumulative weight exceeds `u`. -/
def selectIndexBy {α : Type} (proj : α → ℚ) : List α → ℚ → ℕ
  | [], _ => 0
  | a :: as, u => if u < proj a then 0 else selectIndexBy proj as (u - proj a) + 1

/-- The width-member projection view produced by
`ExitChannel::make_width_iterator`: element ↦ its stored width.  Stated here
for an arbitrary width-bearing element via an accessor function. -/
def viewSelectEqMapSelect {α : Type} (proj : α → ℚ) (l : List α) (u : ℚ) :
    Prop :=
  selectIndexBy proj l u = selectIndexBy id (l.map proj) u

theorem selectIndexBy_map {α : Type} (proj : α → ℚ) (l : List α) (u : ℚ) :
    selectIndexBy id (l.map proj) u = selectIndexBy proj l u := by
  induction l generalizing u with
  | nil => rfl
  | cons a as ih =>
      simp only [List.map_cons, selectIndexBy, id]
      by_cases h : u < proj a
      · simp [h]
      · simp [h, ih]

theorem selectIndexBy_lt_length {α : Type} (proj : α → ℚ) (l : List α)
    (u : ℚ) (h0 : 0 ≤ u) (hu : u < sumBy proj l) :
    selectIndexBy proj l u < l.length := by
  induction l generalizing u with
  | nil =>
      exfalso
      simp only [sumBy, List.map_nil, List.sum_nil] at hu
      linarith
  | cons a as ih =>
      simp only [selectIndexBy]
      by_cases h : u < proj a
      · simp [h]
      · simp only [h, if_false, List.length_cons]
        have h' : proj a ≤ u := le_of_not_lt h
        have hu' : u - proj a < sumBy proj as := by
          simp only [sumBy, List.map_cons, List.sum_cons] at hu
          simp only [sumBy]
          linarith
        exact Nat.succ_lt_succ (ih (u - proj a) (by linarith) hu')

theorem selectIndexBy_take_le {α : Type} (proj : α → ℚ) (l : List α)
    (u : ℚ) (h0 : 0 ≤ u) :
    sumBy proj (l.take (selectIndexBy proj l u)) ≤ u := by
  induction l generalizing u with
  | nil => simpa [selectIndexBy, sumBy] using h0
  | cons a as ih =>
      simp only [selectIndexBy]
      by_cases h : u < proj a
      · simpa [h, sumBy] using h0
      · have h' : proj a ≤ u := le_of_not_lt h
        simp only [h, if_false, List.take_succ_cons, sumBy, List.map_cons,
          List.sum_cons]
        have := ih (u - proj a) (by linarith)
        simp only [sumBy] at this
        linarith

theorem selectIndexBy_take_gt {α : Type} (proj : α → ℚ) (l : List α)
    (u : ℚ) (hu : u < sumBy proj l) :
    u < sumBy proj (l.take (selectIndexBy proj l u + 1)) := by
  induction l generalizing u with
  | nil =>
      simp only [sumBy, List.map_nil, List.sum_nil] at hu
      simpa [selectIndexBy, sumBy] using hu
  | cons a as ih =>
      simp only [selectIndexBy]
      by_cases h : u < proj a
      · simp only [h, if_true, List.take_succ_cons, List.take_zero, sumBy,
          List.map_cons, List.map_nil, List.sum_cons, List.sum_nil, add_zero]
      · simp only [h, if_false, List.take_succ_cons, sumBy, List.map_cons,
          List.sum_cons]
        have hu' : u - proj a < sumBy proj as := by
          simp only [sumBy, List.map_cons, List.sum_cons] at hu
          simp only [sumBy]
          linarith
        have := ih (u - proj a) hu'
        simp only [sumBy] at this
        linarith

theorem selectIndexBy_min {α : Type} (proj : α → ℚ) (l : List α)
    (u : ℚ) (hnn : ∀ a ∈ l, 0 ≤ proj a) :
    ∀ j, u < sumBy proj (l.take (j + 1)) → selectIndexBy proj l u ≤ j := by
  induction l generalizing u with
  | nil => intro j _; simp [selectIndexBy]
  | cons a as ih =>
      intro j hj
      simp only [selectIndexBy]
      by_cases h : u < proj a
      · simp [h]
      · simp only [h, if_false]
        cases j with
        | zero =>
            exfalso
            simp only [List.take_succ_cons, List.take_zero, sumBy,
              List.map_cons, List.map_nil, List.sum_cons, List.sum_nil,
              add_zero] at hj
            exact h hj
        | succ j' =>
            have hj' : u - proj a < sumBy proj (as.take (j' + 1)) := by
              simp only [List.take_succ_cons, sumBy, List.map_cons,
                List.sum_cons] at hj
              simp only [sumBy]
              linarith
            have := ih (u - proj a) (fun x hx => hnn x (List.mem_cons_of_mem a hx)) j' hj'
            omega

/-! ## Random generator

`marley::Generator` is external to the exit-channel core.  Modelled from the
spec: a deterministically seeded random source exposing uniform draws; here a
stream of values together with the position of the next draw, so that draw
consumption is explicit in the state. -/

/-- Random-generator state: the stream of uniform draws and the position of
the next unconsumed draw. -/
structure RngState where
  stream : ℕ → ℚ
  pos : ℕ

/-- Consume one uniform draw, advancing the stream position. -/
def RngState.next (g : RngState) : ℚ × RngState :=
  (g.stream g.pos, { g with pos := g.pos + 1 })

/-! ## ExitChannel hierarchy (header src/unnamed/part_001) -/

/-- A spin-parity value with its partial decay width
(`marley::ContinuumExitChannel::SpinParityWidth`, header lines 202-213); the
constructor stores its three arguments directly. -/
structure SpinParityWidth where
  twoJf : Int
  Pf : Parity
  width : ℚ
deriving DecidableEq

/-- The abstract base class state (`marley::ExitChannel`, header lines
32-85): the stored partial decay width `width_`. -/
structure ExitChannel where
  width_ : ℚ
deriving DecidableEq

/-- The `ExitChannel(double width)` constructor (header line 37): stores the
argument in `width_` unconditionally, with no validation or clamping. -/
def ExitChannel.construct (width : ℚ) : ExitChannel :=
  { width_ := width }

/-- `ExitChannel::width()` (header line 75): returns the stored `width_`. -/
def ExitChannel.width (c : ExitChannel) : ℚ := c.width_

/-- `marley::FragmentDiscreteExitChannel` (header lines 116-145): fragment
emission to a discrete final level. -/
structure FragmentDiscreteExitChannel where
  width_ : ℚ
  final_level_ : Level
  residue_ : Particle
  fragment_ : Fragment
deriving DecidableEq

/-- Constructor (header lines 124-126): forwards `width` to the base and
stores the level, residue and fragment. -/
def FragmentDiscreteExitChannel.construct (width : ℚ) (flev : Level)
    (residue : Particle) (frag : Fragment) : FragmentDiscreteExitChannel :=
  { width_ := width, final_level_ := flev, residue_ := residue,
    fragment_ := frag }

/-- `width()` inherited from the base (header line 75). -/
def FragmentDiscreteExitChannel.width (c : FragmentDiscreteExitChannel) : ℚ :=
  c.width_

/-- `emitted_particle_pdg()` (header lines 133-134): the fragment's PDG. -/
def FragmentDiscreteExitChannel.emitted_particle_pdg
    (c : FragmentDiscreteExitChannel) : Int :=
  c.fragment_.get_pid

/-- `marley::GammaDiscreteExitChannel` (header lines 149-169): gamma emission
to a discrete final level. -/
structure GammaDiscreteExitChannel where
  width_ : ℚ
  final_level_ : Level
  residue_ : Particle
deriving DecidableEq

/-- Constructor (header lines 156-157). -/
def GammaDiscreteExitChannel.construct (width : ℚ) (flev : Level)
    (residue : Particle) : GammaDiscreteExitChannel :=
  { width_ := width, final_level_ := flev, residue_ := residue }

/-- `width()` inherited from the base (header line 75). -/
def GammaDiscreteExitChannel.width (c : GammaDiscreteExitChannel) : ℚ :=
  c.width_

/-- `emitted_particle_pdg()` (header lines 162-163): the photon PDG code. -/
def GammaDiscreteExitChannel.emitted_particle_pdg
    (_c : GammaDiscreteExitChannel) : Int :=
  PHOTON

/-! ### Continuum channels

The `do_decay` bodies (and the `sample_spin_parity` helpers they call) are
out-of-line members not present in the repository snapshot; they are modelled
from the spec.  The external numeric interpolation utility
(`ChebyshevInterpolatingFunction`) and the transmission-coefficient /
level-density computation that fills the spin-parity table are black boxes;
the latter is abstracted as the field `jpiBuilder`, and the former by the
grid-based CDF tabulation below. -/

/-- Modelled from the spec: node `i` of the `n+1` equally spaced grid points
that the interpolation utility lays over `[Emin, Emax]`. -/
def gridPoint (Emin Emax : ℚ) (n i : ℕ) : ℚ :=
  Emin + (Emax - Emin) * ((i : ℚ) / (n : ℚ))

/-- Modelled from the spec: the external interpolation utility builds the
cumulative distribution of the density `f` over `[Emin, Emax]` and inverts
it; modelled by tabulating (energy node, density weight) pairs. -/
def buildInvCdf (f : ℚ → ℚ) (Emin Emax : ℚ) (n : ℕ) : List (ℚ × ℚ) :=
  (List.range (n + 1)).map
    (fun i => (gridPoint Emin Emax n i, f (gridPoint Emin Emax n i)))

/-- Modelled from the spec: evaluate the inverse-CDF interpolant at a uniform
draw `u`: the first tabulated node whose cumulative weight exceeds
`u * total`. -/
def evalInvCdf (Emin : ℚ) (tbl : List (ℚ × ℚ)) (u : ℚ) : ℚ :=
  (tbl.getD (selectIndexBy Prod.snd tbl (u * sumBy Prod.snd tbl))
    (Emin, 0)).1

/-- Modelled from the spec: isotropic emission-direction sampling consumes
two uniform draws (a cosine and an azimuth). -/
def sampleDirection (g : RngState) : (ℚ × ℚ) × RngState :=
  let (u1, g1) := g.next
  let (u2, g2) := g1.next
  ((2 * u1 - 1, u2), g2)

/-- The post-decay state loaded by `do_decay`: the overwritten
`(Ex, two_J, Pi)` triple plus the two output particles. -/
structure DecayResult where
  Ex : ℚ
  twoJ : Int
  pi : Parity
  emitted_particle : Particle
  residual_nucleus : Particle
deriving DecidableEq

/-- Modelled from the spec: the emitted particle carries the channel's PDG
code and the sampled direction parameters; the relativistic momentum
magnitude is the external kinematics black box. -/
def mkEmitted (pdgEmit : Int) (massEmit cosTh phi : ℚ) : Particle :=
  { pdg_code := pdgEmit, E := massEmit, px := phi, py := 0, pz := cosTh,
    mass := massEmit }

/-- Modelled from the spec: the final-state nucleus takes the ground-state
residue's identity, its mass determined from the ground-state mass and the
sampled excitation energy, recoiling opposite the emitted particle. -/
def mkResidual (gsRes : Particle) (ExFinal cosTh phi : ℚ) : Particle :=
  { gsRes with px := -phi, pz := -cosTh, mass := gsRes.mass + ExFinal }

/-- Failure modes of a cascade step surfaced by `do_decay`. -/
inductive DecayError where
  | NoAccessibleChannel
deriving DecidableEq

/-- Modelled from the spec: discrete-channel `do_decay` (§4.2): `Ex`,
`two_J`, `Pi` are overwritten with the referenced Level's exact values
regardless of their pre-call values; only the emission direction is
sampled. -/
def discreteDecay (pdgEmit : Int) (massEmit : ℚ) (flev : Level)
    (residue : Particle) (g : RngState) : DecayResult × RngState :=
  let ((cosTh, phi), g2) := sampleDirection g
  ({ Ex := flev.energy, twoJ := flev.twoJ, pi := flev.pi,
     emitted_particle := mkEmitted pdgEmit massEmit cosTh phi,
     residual_nucleus := { residue with px := -phi, pz := -cosTh } }, g2)

/-- `FragmentDiscreteExitChannel::do_decay` (declared header lines 136-139),
modelled from the spec via `discreteDecay`. -/
def FragmentDiscreteExitChannel.do_decay (c : FragmentDiscreteExitChannel)
    (_Ex : ℚ) (_two_J : Int) (_Pi : Parity) (g : RngState) :
    DecayResult × RngState :=
  discreteDecay c.fragment_.get_pid c.fragment_.mass c.final_level_
    c.residue_ g

/-- `GammaDiscreteExitChannel::do_decay` (declared header lines 165-168),
modelled from the spec via `discreteDecay`; the emitted particle is a
photon. -/
def GammaDiscreteExitChannel.do_decay (c : GammaDiscreteExitChannel)
    (_Ex : ℚ) (_two_J : Int) (_Pi : Parity) (g : RngState) :
    DecayResult × RngState :=
  discreteDecay PHOTON 0 c.final_level_ c.residue_ g

/-- The pair of lazily built mutable caches of a continuum channel: the
inverse-CDF interpolant table (`Ecdf_`) and the spin-parity width table
(`jpi_widths_table_`); `none` denotes not-yet-built. -/
structure ContinuumCaches where
  ecdf : Option (List (ℚ × ℚ))
  jpi : Option (List SpinParityWidth)
deriving DecidableEq

/-- One continuum `do_decay` step: the outcome, the phase-1 sampled
excitation energy, the updated caches, and the advanced generator. -/
structure ContinuumStep where
  outcome : Except DecayError DecayResult
  sampledEx : ℚ
  caches : ContinuumCaches
  rng : RngState

/-- Modelled from the spec: the two-phase continuum `do_decay` (§4.3).
Phase 1 builds the inverse-CDF interpolant on first use (reusing the cache
thereafter) and samples `Ex_final` from one uniform draw.  Phase 2, unless
the testing-only skip flag is set, builds the spin-parity table on first use,
fails with `NoAccessibleChannel` if the table is empty, and otherwise samples
a `SpinParityWidth` entry width-weightedly; with the skip flag set, `two_J`
and `Pi` keep their pre-call values.  Finally an isotropic emission direction
is sampled. -/
def continuumDecay (pdgEmit : Int) (massEmit : ℚ) (Emin Emax : ℚ)
    (gsRes : Particle) (dens : ℚ → ℚ) (buildJpi : ℚ → List SpinParityWidth)
    (n : ℕ) (skip : Bool) (caches : ContinuumCaches)
    (two_J : Int) (Pi : Parity) (g : RngState) : ContinuumStep :=
  let ecdfTbl := caches.ecdf.getD (buildInvCdf dens Emin Emax n)
  let (u1, g1) := g.next
  let ExFinal := evalInvCdf Emin ecdfTbl u1
  if skip then
    let ((cosTh, phi), g2) := sampleDirection g1
    let r : DecayResult :=
      { Ex := ExFinal
        twoJ := two_J
        pi := Pi
        emitted_particle := mkEmitted pdgEmit massEmit cosTh phi
        residual_nucleus := mkResidual gsRes ExFinal cosTh phi }
    { outcome := Except.ok r
      sampledEx := ExFinal
      caches := { ecdf := some ecdfTbl, jpi := caches.jpi }
      rng := g2 }
  else
    let tbl := caches.jpi.getD (buildJpi ExFinal)
    if tbl.isEmpty then
      { outcome := Except.error DecayError.NoAccessibleChannel
        sampledEx := ExFinal
        caches := { ecdf := some ecdfTbl, jpi := some tbl }
        rng := g1 }
    else
      let (u2, g2) := g1.next
      let jp := tbl.getD
        (selectIndexBy SpinParityWidth.width tbl
          (u2 * sumBy SpinParityWidth.width tbl)) ⟨0, Parity.plus, 0⟩
      let ((cosTh, phi), g3) := sampleDirection g2
      let r : DecayResult :=
        { Ex := ExFinal
          twoJ := jp.twoJf
          pi := jp.Pf
          emitted_particle := mkEmitted pdgEmit massEmit cosTh phi
          residual_nucleus := mkResidual gsRes ExFinal cosTh phi }
      { outcome := Except.ok r
        sampledEx := ExFinal
        caches := { ecdf := some ecdfTbl, jpi := some tbl }
        rng := g3 }

/-- `marley::FragmentContinuumExitChannel` (header lines 230-292).  `Epdf_`
models `std::function<double(double&,double)>`: given `Ex` it returns the
probability density together with the fragment kinetic-energy side output.
`jpiBuilder` abstracts the external transmission-coefficient computation that
fills the spin-parity table at a given `Ex_final`; `gridN` is the external
interpolant's node-count parameter. -/
structure FragmentContinuumExitChannel where
  width_ : ℚ
  Emin_ : ℚ
  Emax_ : ℚ
  gs_residue_ : Particle
  Epdf_ : ℚ → ℚ × ℚ
  fragment_ : Fragment
  jpiBuilder : ℚ → List SpinParityWidth
  gridN : ℕ
  Ecdf_ : Option (List (ℚ × ℚ))
  jpi_widths_table_ : Option (List SpinParityWidth)
  skip_jpi_sampling_ : Bool
  total_KE_CM_frame_ : ℚ

/-- Constructor (header lines 245-249): stores the construction arguments;
the `Ecdf_` interpolant pointer starts null, the spin-parity table starts
unbuilt, and `skip_jpi_sampling_` defaults to `false` (header line 225). -/
def FragmentContinuumExitChannel.construct (width Emin Emax : ℚ)
    (Epdf : ℚ → ℚ × ℚ) (frag : Fragment) (gs_residue : Particle)
    (builder : ℚ → List SpinParityWidth) (n : ℕ) :
    FragmentContinuumExitChannel :=
  { width_ := width, Emin_ := Emin, Emax_ := Emax,
    gs_residue_ := gs_residue, Epdf_ := Epdf, fragment_ := frag,
    jpiBuilder := builder, gridN := n, Ecdf_ := none,
    jpi_widths_table_ := none, skip_jpi_sampling_ := false,
    total_KE_CM_frame_ := 0 }

/-- `width()` inherited from the base (header line 75). -/
def FragmentContinuumExitChannel.width (c : FragmentContinuumExitChannel) :
    ℚ :=
  c.width_

/-- `set_skip_jpi_sampling` (header lines 196-197): sets the testing-only
flag on the (conceptually const) channel. -/
def FragmentContinuumExitChannel.set_skip_jpi_sampling
    (c : FragmentContinuumExitChannel) (skip_it : Bool) :
    FragmentContinuumExitChannel :=
  { c with skip_jpi_sampling_ := skip_it }

/-- `FragmentContinuumExitChannel::do_decay` (declared header lines
269-272), modelled from the spec via `continuumDecay`; the density read by
phase 1 is the first component of `Epdf_`, and the fragment kinetic-energy
side output at the sampled energy is stored in `total_KE_CM_frame_`. -/
def FragmentContinuumExitChannel.do_decay (c : FragmentContinuumExitChannel)
    (_Ex : ℚ) (two_J : Int) (Pi : Parity) (g : RngState) :
    ContinuumStep × FragmentContinuumExitChannel :=
  let step := continuumDecay c.fragment_.get_pid c.fragment_.mass c.Emin_
    c.Emax_ c.gs_residue_ (fun e => (c.Epdf_ e).1) c.jpiBuilder c.gridN
    c.skip_jpi_sampling_ { ecdf := c.Ecdf_, jpi := c.jpi_widths_table_ }
    two_J Pi g
  let c2 : FragmentContinuumExitChannel :=
    { c with
      Ecdf_ := step.caches.ecdf
      jpi_widths_table_ := step.caches.jpi
      total_KE_CM_frame_ := (c.Epdf_ step.sampledEx).2 }
  (step, c2)

/-- `marley::GammaContinuumExitChannel` (header lines 296-363).  `Epdf_` is
the plain density `std::function<double(double)>`; `jpiBuilder` abstracts the
transmission-coefficient / level-density computation
(`store_gamma_jpi_width` and its callers) that fills the spin-parity table at
a given `Ex_final`. -/
structure GammaContinuumExitChannel where
  width_ : ℚ
  Emin_ : ℚ
  Emax_ : ℚ
  gs_residue_ : Particle
  Epdf_ : ℚ → ℚ
  jpiBuilder : ℚ → List SpinParityWidth
  gridN : ℕ
  Ecdf_ : Option (List (ℚ × ℚ))
  jpi_widths_table_ : Option (List SpinParityWidth)
  skip_jpi_sampling_ : Bool

/-- Constructor (header lines 310-313): stores the construction arguments;
caches start unbuilt and `skip_jpi_sampling_` defaults to `false`. -/
def GammaContinuumExitChannel.construct (width Emin Emax : ℚ)
    (Epdf : ℚ → ℚ) (gs_residue : Particle)
    (builder : ℚ → List SpinParityWidth) (n : ℕ) :
    GammaContinuumExitChannel :=
  { width_ := width, Emin_ := Emin, Emax_ := Emax,
    gs_residue_ := gs_residue, Epdf_ := Epdf, jpiBuilder := builder,
    gridN := n, Ecdf_ := none, jpi_widths_table_ := none,
    skip_jpi_sampling_ := false }

/-- `width()` inherited from the base (header line 75). -/
def GammaContinuumExitChannel.width (c : GammaContinuumExitChannel) : ℚ :=
  c.width_

/-- `set_skip_jpi_sampling` (header lines 196-197). -/
def GammaContinuumExitChannel.set_skip_jpi_sampling
    (c : GammaContinuumExitChannel) (skip_it : Bool) :
    GammaContinuumExitChannel :=
  { c with skip_jpi_sampling_ := skip_it }

/-- `GammaContinuumExitChannel::do_decay` (declared header lines 333-336),
modelled from the spec via `continuumDecay`; the emitted particle is a
photon. -/
def GammaContinuumExitChannel.do_decay (c : GammaContinuumExitChannel)
    (_Ex : ℚ) (two_J : Int) (Pi : Parity) (g : RngState) :
    ContinuumStep × GammaContinuumExitChannel :=
  let step := continuumDecay PHOTON 0 c.Emin_ c.Emax_ c.gs_residue_
    c.Epdf_ c.jpiBuilder c.gridN c.skip_jpi_sampling_
    { ecdf := c.Ecdf_, jpi := c.jpi_widths_table_ } two_J Pi g
  let c2 : GammaContinuumExitChannel :=
    { c with
      Ecdf_ := step.caches.ecdf
      jpi_widths_table_ := step.caches.jpi }
  (step, c2)

/-- The closed set of concrete `ExitChannel` variants, for statements that
range over every channel kind. -/
inductive Channel where
  | fragDisc (c : FragmentDiscreteExitChannel)
  | gamDisc (c : GammaDiscreteExitChannel)
  | fragCont (c : FragmentContinuumExitChannel)
  | gamCont (c : GammaContinuumExitChannel)

/-- The stored `width_` of any concrete channel (base-class member). -/
def Channel.width : Channel → ℚ
  | .fragDisc c => c.width_
  | .gamDisc c => c.width_
  | .fragCont c => c.width_
  | .gamCont c => c.width_

/-- Virtual-dispatch `do_decay` over the four concrete variants, returning
the outcome, the updated channel object (caches possibly built), and the
advanced generator. -/
def Channel.do_decay : Channel → ℚ → Int → Parity → RngState →
    Except DecayError DecayResult × Channel × RngState
  | .fragDisc c, Ex, two_J, Pi, g =>
      let (r, g2) := c.do_decay Ex two_J Pi g
      (Except.ok r, Channel.fragDisc c, g2)
  | .gamDisc c, Ex, two_J, Pi, g =>
      let (r, g2) := c.do_decay Ex two_J Pi g
      (Except.ok r, Channel.gamDisc c, g2)
  | .fragCont c, Ex, two_J, Pi, g =>
      let (step, c2) := c.do_decay Ex two_J Pi g
      (step.outcome, Channel.fragCont c2, step.rng)
  | .gamCont c, Ex, two_J, Pi, g =>
      let (step, c2) := c.do_decay Ex two_J Pi g
      (step.outcome, Channel.gamCont c2, step.rng)

/-! ## Structural lemmas about the continuum sampling step -/

theorem gridPoint_bounds (Emin Emax : ℚ) (n i : ℕ) (hle : Emin ≤ Emax)
    (hi : i ≤ n) :
    Emin ≤ gridPoint Emin Emax n i ∧ gridPoint Emin Emax n i ≤ Emax := by
  unfold gridPoint
  rcases Nat.eq_zero_or_pos n with hn | hn
  · subst hn
    have hi0 : i = 0 := Nat.le_zero.mp hi
    subst hi0
    norm_num
    exact hle
  · have hn' : (0:ℚ) < (n:ℚ) := by exact_mod_cast hn
    have h0 : (0:ℚ) ≤ (i:ℚ) / (n:ℚ) :=
      div_nonneg (by positivity) (le_of_lt hn')
    have h1 : (i:ℚ) / (n:ℚ) ≤ 1 := by
      rw [div_le_one hn']
      exact_mod_cast hi
    have hd : (0:ℚ) ≤ Emax - Emin := sub_nonneg.mpr hle
    constructor
    · nlinarith
    · nlinarith

theorem buildInvCdf_fst_bounds (f : ℚ → ℚ) (Emin Emax : ℚ) (n : ℕ)
    (hle : Emin ≤ Emax) :
    ∀ p ∈ buildInvCdf f Emin Emax n, Emin ≤ p.1 ∧ p.1 ≤ Emax := by
  intro p hp
  simp only [buildInvCdf, List.mem_map, List.mem_range] at hp
  obtain ⟨i, hi, rfl⟩ := hp
  exact gridPoint_bounds Emin Emax n i hle (Nat.lt_succ_iff.mp hi)

theorem evalInvCdf_bounds (Emin Emax : ℚ) (tbl : List (ℚ × ℚ)) (u : ℚ)
    (hle : Emin ≤ Emax)
    (htbl : ∀ p ∈ tbl, Emin ≤ p.1 ∧ p.1 ≤ Emax) :
    Emin ≤ evalInvCdf Emin tbl u ∧ evalInvCdf Emin tbl u ≤ Emax := by
  unfold evalInvCdf
  by_cases hk : selectIndexBy Prod.snd tbl (u * sumBy Prod.snd tbl)
      < tbl.length
  · rw [List.getD_eq_getElem _ _ hk]
    exact htbl _ (List.getElem_mem hk)
  · rw [List.getD_eq_default _ _ (le_of_not_lt hk)]
    exact ⟨le_refl _, hle⟩

theorem continuumDecay_sampledEx (pdgEmit : Int) (massEmit Emin Emax : ℚ)
    (gsRes : Particle) (dens : ℚ → ℚ) (bj : ℚ → List SpinParityWidth)
    (n : ℕ) (skip : Bool) (caches : ContinuumCaches) (tJ : Int) (P : Parity)
    (g : RngState) :
    (continuumDecay pdgEmit massEmit Emin Emax gsRes dens bj n skip caches
        tJ P g).sampledEx
      = evalInvCdf Emin (caches.ecdf.getD (buildInvCdf dens Emin Emax n))
          (g.stream g.pos) := by
  unfold continuumDecay
  simp only [RngState.next]
  split
  · rfl
  · split <;> rfl

theorem continuumDecay_caches_ecdf (pdgEmit : Int)
    (massEmit Emin Emax : ℚ) (gsRes : Particle) (dens : ℚ → ℚ)
    (bj : ℚ → List SpinParityWidth) (n : ℕ) (skip : Bool)
    (caches : ContinuumCaches) (tJ : Int) (P : Parity) (g : RngState) :
    (continuumDecay pdgEmit massEmit Emin Emax gsRes dens bj n skip caches
        tJ P g).caches.ecdf
      = some (caches.ecdf.getD (buildInvCdf dens Emin Emax n)) := by
  unfold continuumDecay
  simp only [RngState.next]
  split
  · rfl
  · split <;> rfl

theorem continuumDecay_caches_jpi (pdgEmit : Int)
    (massEmit Emin Emax : ℚ) (gsRes : Particle) (dens : ℚ → ℚ)
    (bj : ℚ → List SpinParityWidth) (n : ℕ) (skip : Bool)
    (caches : ContinuumCaches) (tJ : Int) (P : Parity) (g : RngState) :
    (continuumDecay pdgEmit massEmit Emin Emax gsRes dens bj n skip caches
        tJ P g).caches.jpi
      = if skip then caches.jpi
        else some (caches.jpi.getD (bj
          (evalInvCdf Emin (caches.ecdf.getD (buildInvCdf dens Emin Emax n))
            (g.stream g.pos)))) := by
  cases skip with
  | true =>
      unfold continuumDecay
      simp [RngState.next]
  | false =>
      unfold continuumDecay
      simp only [RngState.next, Bool.false_eq_true, if_false]
      split <;> rfl

theorem continuumDecay_outcome_skip (pdgEmit : Int)
    (massEmit Emin Emax : ℚ) (gsRes : Particle) (dens : ℚ → ℚ)
    (bj : ℚ → List SpinParityWidth) (n : ℕ) (caches : ContinuumCaches)
    (tJ : Int) (P : Parity) (g : RngState) :
    ∃ r, (continuumDecay pdgEmit massEmit Emin Emax gsRes dens bj n true
        caches tJ P g).outcome = Except.ok r ∧
      r.twoJ = tJ ∧ r.pi = P ∧
      r.Ex = (continuumDecay pdgEmit massEmit Emin Emax gsRes dens bj n true
        caches tJ P g).sampledEx := by
  refine ⟨_, rfl, rfl, rfl, rfl⟩

theorem continuumDecay_outcome_empty (pdgEmit : Int)
    (massEmit Emin Emax : ℚ) (gsRes : Particle) (dens : ℚ → ℚ)
    (bj : ℚ → List SpinParityWidth) (n : ℕ) (caches : ContinuumCaches)
    (tJ : Int) (P : Parity) (g : RngState)
    (hempty : caches.jpi.getD (bj
        (evalInvCdf Emin (caches.ecdf.getD (buildInvCdf dens Emin Emax n))
          (g.stream g.pos))) = []) :
    (continuumDecay pdgEmit massEmit Emin Emax gsRes dens bj n false caches
        tJ P g).outcome = Except.error DecayError.NoAccessibleChannel := by
  unfold continuumDecay
  simp only [RngState.next]
  simp only [Bool.false_eq_true, if_false]
  rw [hempty]
  rfl

/-! ## Channel-level unfolding lemmas -/

theorem fragCont_step_eq (cf : FragmentContinuumExitChannel) (Ex : ℚ)
    (tJ : Int) (P : Parity) (g : RngState) :
    (cf.do_decay Ex tJ P g).1
      = continuumDecay cf.fragment_.get_pid cf.fragment_.mass cf.Emin_
          cf.Emax_ cf.gs_residue_ (fun e => (cf.Epdf_ e).1) cf.jpiBuilder
          cf.gridN cf.skip_jpi_sampling_
          { ecdf := cf.Ecdf_, jpi := cf.jpi_widths_table_ } tJ P g := rfl

theorem gamCont_step_eq (cg : GammaContinuumExitChannel) (Ex : ℚ)
    (tJ : Int) (P : Parity) (g : RngState) :
    (cg.do_decay Ex tJ P g).1
      = continuumDecay PHOTON 0 cg.Emin_ cg.Emax_ cg.gs_residue_ cg.Epdf_
          cg.jpiBuilder cg.gridN cg.skip_jpi_sampling_
          { ecdf := cg.Ecdf_, jpi := cg.jpi_widths_table_ } tJ P g := rfl

theorem fragCont_second_step_eq (cf : FragmentContinuumExitChannel)
    (Ex Ex2 : ℚ) (tJ tJ2 : Int) (P P2 : Parity) (g g2 : RngState) :
    (((cf.do_decay Ex tJ P g).2).do_decay Ex2 tJ2 P2 g2).1
      = continuumDecay cf.fragment_.get_pid cf.fragment_.mass cf.Emin_
          cf.Emax_ cf.gs_residue_ (fun e => (cf.Epdf_ e).1) cf.jpiBuilder
          cf.gridN cf.skip_jpi_sampling_
          { ecdf := ((cf.do_decay Ex tJ P g).1).caches.ecdf
            jpi := ((cf.do_decay Ex tJ P g).1).caches.jpi } tJ2 P2 g2 := rfl

theorem gamCont_second_step_eq (cg : GammaContinuumExitChannel)
    (Ex Ex2 : ℚ) (tJ tJ2 : Int) (P P2 : Parity) (g g2 : RngState) :
    (((cg.do_decay Ex tJ P g).2).do_decay Ex2 tJ2 P2 g2).1
      = continuumDecay PHOTON 0 cg.Emin_ cg.Emax_ cg.gs_residue_ cg.Epdf_
          cg.jpiBuilder cg.gridN cg.skip_jpi_sampling_
          { ecdf := ((cg.do_decay Ex tJ P g).1).caches.ecdf
            jpi := ((cg.do_decay Ex tJ P g).1).caches.jpi } tJ2 P2 g2 := rfl

theorem fragCont_sampledEx (cf : FragmentContinuumExitChannel) (Ex : ℚ)
    (tJ : Int) (P : Parity) (g : RngState) :
    ((cf.do_decay Ex tJ P g).1).sampledEx
      = evalInvCdf cf.Emin_ (cf.Ecdf_.getD (buildInvCdf
          (fun e => (cf.Epdf_ e).1) cf.Emin_ cf.Emax_ cf.gridN))
          (g.stream g.pos) :=
  continuumDecay_sampledEx cf.fragment_.get_pid cf.fragment_.mass cf.Emin_
    cf.Emax_ cf.gs_residue_ (fun e => (cf.Epdf_ e).1) cf.jpiBuilder
    cf.gridN cf.skip_jpi_sampling_
    { ecdf := cf.Ecdf_, jpi := cf.jpi_widths_table_ } tJ P g

theorem gamCont_sampledEx (cg : GammaContinuumExitChannel) (Ex : ℚ)
    (tJ : Int) (P : Parity) (g : RngState) :
    ((cg.do_decay Ex tJ P g).1).sampledEx
      = evalInvCdf cg.Emin_ (cg.Ecdf_.getD (buildInvCdf cg.Epdf_ cg.Emin_
          cg.Emax_ cg.gridN)) (g.stream g.pos) :=
  continuumDecay_sampledEx PHOTON 0 cg.Emin_ cg.Emax_ cg.gs_residue_
    cg.Epdf_ cg.jpiBuilder cg.gridN cg.skip_jpi_sampling_
    { ecdf := cg.Ecdf_, jpi := cg.jpi_widths_table_ } tJ P g

theorem evalInvCdf_getD_bounds (Emin Emax : ℚ) (f : ℚ → ℚ) (n : ℕ)
    (cache : Option (List (ℚ × ℚ))) (u : ℚ) (hle : Emin ≤ Emax)
    (hc : cache = none ∨ cache = some (buildInvCdf f Emin Emax n)) :
    Emin ≤ evalInvCdf Emin (cache.getD (buildInvCdf f Emin Emax n)) u ∧
    evalInvCdf Emin (cache.getD (buildInvCdf f Emin Emax n)) u ≤ Emax := by
  have hcc : cache.getD (buildInvCdf f Emin Emax n)
      = buildInvCdf f Emin Emax n := by
    rcases hc with h | h <;> simp [h]
  rw [hcc]
  exact evalInvCdf_bounds Emin Emax _ u hle
    (buildInvCdf_fst_bounds f Emin Emax n hle)

/-! ## Concrete fixtures used by the closed instance theorems -/

/-- A sample neutron fragment. -/
def aFrag : Fragment := { get_pid := 2112, mass := 939 }

/-- A sample ground-state residual-nucleus particle. -/
def aGs : Particle :=
  { pdg_code := 1000180390, E := 36000, px := 0, py := 0, pz := 0,
    mass := 36000 }

/-- A sample residue particle for discrete channels. -/
def aRes : Particle :=
  { pdg_code := 1000190390, E := 36200, px := 0, py := 0, pz := 0,
    mass := 36200 }

/-- A sample final level (Ex = 1, twoJ = 4, parity +1). -/
def aLevel : Level := { energy := 1, twoJ := 4, pi := Parity.plus }

/-- A concrete seeded random stream: every draw is 1/2. -/
def aRng : RngState := { stream := fun _ => 1/2, pos := 0 }

/-- A sample one-entry spin-parity table builder. -/
def aBuilder : ℚ → List SpinParityWidth :=
  fun _ => [{ twoJf := 2, Pf := Parity.minus, width := 3 }]

/-- A table builder producing no accessible spin-parities. -/
def emptyBuilder : ℚ → List SpinParityWidth := fun _ => []

/-- A concrete three-entry spin-parity table with weights 1, 2, 3. -/
def aJpiList : List SpinParityWidth :=
  [{ twoJf := 0, Pf := Parity.plus, width := 1 },
   { twoJf := 2, Pf := Parity.minus, width := 2 },
   { twoJf := 4, Pf := Parity.plus, width := 3 }]

/-- A concrete fragment-continuum channel over [0, 5], uniform density. -/
def aFragCont : FragmentContinuumExitChannel :=
  FragmentContinuumExitChannel.construct 1 0 5 (fun e => (1, e)) aFrag aGs
    aBuilder 4

/-- A concrete gamma-continuum channel over [0, 5], uniform density. -/
def aGamCont : GammaContinuumExitChannel :=
  GammaContinuumExitChannel.construct 1 0 5 (fun _ => 1) aGs aBuilder 4

/-! ## Claim theorems -/

/-- Claim C10: after moving from a `marley::Event`, by move construction or
move assignment, the moved-from event's excitation energy `Ex_` equals 0 and
both its initial-particle and final-particle lists are empty; the
destination event holds exactly the particle values the source held before
the move. -/
theorem C10_event_move_semantics (e lhs : Event) :
    ((e.moveCtor).2.Ex_ = 0 ∧
     (e.moveCtor).2.initial_particles_ = [] ∧
     (e.moveCtor).2.final_particles_ = [] ∧
     (e.moveCtor).1.initial_particles_ = e.initial_particles_ ∧
     (e.moveCtor).1.final_particles_ = e.final_particles_) ∧
    ((Event.moveAssign lhs e).2.Ex_ = 0 ∧
     (Event.moveAssign lhs e).2.initial_particles_ = [] ∧
     (Event.moveAssign lhs e).2.final_particles_ = [] ∧
     (Event.moveAssign lhs e).1.initial_particles_ = e.initial_particles_ ∧
     (Event.moveAssign lhs e).1.final_particles_ = e.final_particles_) :=
  ⟨⟨rfl, rfl, rfl, rfl, rfl⟩, ⟨rfl, rfl, rfl, rfl, rfl⟩⟩

/-- Claim C9: for every channel constructed with width argument `w`,
`width()` returns exactly `w` — for the abstract base and each of the four
concrete variants — and `do_decay` (the only state-changing operation on a
channel) leaves the stored width unchanged, so `width()` returns the same
value on every call for the lifetime of the channel. -/
theorem C9_width_returns_ctor_argument (w Emin Emax : ℚ) (flev : Level)
    (residue gsRes : Particle) (frag : Fragment) (Epdf2 : ℚ → ℚ × ℚ)
    (Epdf1 : ℚ → ℚ) (bj : ℚ → List SpinParityWidth) (n : ℕ)
    (ch : Channel) (Ex : ℚ) (tJ : Int) (P : Parity) (g : RngState) :
    (ExitChannel.construct w).width = w ∧
    (FragmentDiscreteExitChannel.construct w flev residue frag).width = w ∧
    (GammaDiscreteExitChannel.construct w flev residue).width = w ∧
    (FragmentContinuumExitChannel.construct w Emin Emax Epdf2 frag gsRes
      bj n).width = w ∧
    (GammaContinuumExitChannel.construct w Emin Emax Epdf1 gsRes
      bj n).width = w ∧
    (ch.do_decay Ex tJ P g).2.1.width = ch.width := by
  refine ⟨rfl, rfl, rfl, rfl, rfl, ?_⟩
  cases ch <;> rfl

/-- Claim C2 counterexample: constructing channels with width = -1 does not
fail: the base constructor and each of the four concrete constructors return
normally and `width()` reads back exactly -1 — the negative value is stored,
neither rejected with an InvalidWidth error nor clamped. -/
theorem C2_counterexample_negative_width_accepted :
    (ExitChannel.construct (-1)).width = -1 ∧
    (FragmentDiscreteExitChannel.construct (-1) aLevel aRes aFrag).width
      = -1 ∧
    (GammaDiscreteExitChannel.construct (-1) aLevel aRes).width = -1 ∧
    (FragmentContinuumExitChannel.construct (-1) 0 5 (fun e => (1, e)) aFrag
      aGs aBuilder 4).width = -1 ∧
    (GammaContinuumExitChannel.construct (-1) 0 5 (fun _ => 1) aGs
      aBuilder 4).width = -1 :=
  ⟨rfl, rfl, rfl, rfl, rfl⟩

/-- Claim C2 (amended): constructing any of the four concrete channel
variants (or the abstract base) with a negative width `w`, for example
`w = -1`, does not fail: the constructors perform no validation and store
`w` unchanged in `width_` (in particular they do not clamp it). -/
theorem C2_amended_width_stored_unvalidated (w Emin Emax : ℚ) (flev : Level)
    (residue gsRes : Particle) (frag : Fragment) (Epdf2 : ℚ → ℚ × ℚ)
    (Epdf1 : ℚ → ℚ) (bj : ℚ → List SpinParityWidth) (n : ℕ)
    (_hw : w < 0) :
    (ExitChannel.construct w).width_ = w ∧
    (FragmentDiscreteExitChannel.construct w flev residue frag).width_
      = w ∧
    (GammaDiscreteExitChannel.construct w flev residue).width_ = w ∧
    (FragmentContinuumExitChannel.construct w Emin Emax Epdf2 frag gsRes
      bj n).width_ = w ∧
    (GammaContinuumExitChannel.construct w Emin Emax Epdf1 gsRes
      bj n).width_ = w :=
  ⟨rfl, rfl, rfl, rfl, rfl⟩

theorem C2_amended_witness :
    ((-1 : ℚ) < 0) ∧
    ((ExitChannel.construct (-1)).width_ = -1 ∧
     (FragmentDiscreteExitChannel.construct (-1) aLevel aRes aFrag).width_
       = -1 ∧
     (GammaDiscreteExitChannel.construct (-1) aLevel aRes).width_ = -1 ∧
     (FragmentContinuumExitChannel.construct (-1) 0 5 (fun e => (1, e))
       aFrag aGs aBuilder 4).width_ = -1 ∧
     (GammaContinuumExitChannel.construct (-1) 0 5 (fun _ => 1) aGs
       aBuilder 4).width_ = -1) :=
  ⟨by norm_num,
   C2_amended_width_stored_unvalidated (-1) 0 5 aLevel aRes aGs aFrag
     (fun e => (1, e)) (fun _ => 1) aBuilder 4 (by norm_num)⟩

/-- Claim C3: for a discrete-gamma channel built from a final level with
excitation energy 1, twoJ = 4, parity +1, a call to `do_decay` overwrites
the in/out state (Ex, twoJ, Pi) with exactly those level values regardless
of their pre-call values, and `emitted_particle_pdg()` returns the photon
PDG code (as does the emitted particle itself). -/
theorem C3_gamma_discrete_fixed_final_state (w : ℚ) (residue : Particle)
    (Ex : ℚ) (tJ : Int) (P : Parity) (g : RngState) :
    ((GammaDiscreteExitChannel.construct w
      { energy := 1, twoJ := 4, pi := Parity.plus } residue).do_decay
        Ex tJ P g).1.Ex = 1 ∧
    ((GammaDiscreteExitChannel.construct w
      { energy := 1, twoJ := 4, pi := Parity.plus } residue).do_decay
        Ex tJ P g).1.twoJ = 4 ∧
    ((GammaDiscreteExitChannel.construct w
      { energy := 1, twoJ := 4, pi := Parity.plus } residue).do_decay
        Ex tJ P g).1.pi = Parity.plus ∧
    (GammaDiscreteExitChannel.construct w
      { energy := 1, twoJ := 4, pi := Parity.plus }
        residue).emitted_particle_pdg = PHOTON ∧
    ((GammaDiscreteExitChannel.construct w
      { energy := 1, twoJ := 4, pi := Parity.plus } residue).do_decay
        Ex tJ P g).1.emitted_particle.pdg_code = PHOTON :=
  ⟨rfl, rfl, rfl, rfl, rfl⟩

/-- Claim C5: width-weighted selection over an ordered list with
non-negative weights returns, for a uniform draw `u` in `[0, total)`, the
first element whose cumulative weight exceeds `u`: the selected index is in
range, the cumulative weight strictly before it is ≤ `u`, the cumulative
weight through it exceeds `u`, and it is the least index with that property;
moreover reading the weights through the projection view (the
iterator-to-member adapter) agrees with selection over the materialized
weight list, so no separate weight array is needed. -/
theorem C5_width_weighted_selection {α : Type} (proj : α → ℚ) (l : List α)
    (u : ℚ) (hnn : ∀ a ∈ l, 0 ≤ proj a) (h0 : 0 ≤ u)
    (hu : u < sumBy proj l) :
    selectIndexBy proj l u < l.length ∧
    sumBy proj (l.take (selectIndexBy proj l u)) ≤ u ∧
    u < sumBy proj (l.take (selectIndexBy proj l u + 1)) ∧
    (∀ j, u < sumBy proj (l.take (j + 1)) → selectIndexBy proj l u ≤ j) ∧
    selectIndexBy proj l u = selectIndexBy id (l.map proj) u :=
  ⟨selectIndexBy_lt_length proj l u h0 hu,
   selectIndexBy_take_le proj l u h0,
   selectIndexBy_take_gt proj l u hu,
   selectIndexBy_min proj l u hnn,
   (selectIndexBy_map proj l u).symm⟩

theorem C5_witness :
    (∀ a ∈ aJpiList, 0 ≤ SpinParityWidth.width a) ∧ ((0:ℚ) ≤ 3/2) ∧
    (3/2 < sumBy SpinParityWidth.width aJpiList) ∧
    (selectIndexBy SpinParityWidth.width aJpiList (3/2)
        < aJpiList.length ∧
     sumBy SpinParityWidth.width
        (aJpiList.take (selectIndexBy SpinParityWidth.width aJpiList (3/2)))
        ≤ 3/2 ∧
     (3/2 : ℚ) < sumBy SpinParityWidth.width
        (aJpiList.take
          (selectIndexBy SpinParityWidth.width aJpiList (3/2) + 1)) ∧
     (∀ j, (3/2 : ℚ) < sumBy SpinParityWidth.width (aJpiList.take (j + 1)) →
        selectIndexBy SpinParityWidth.width aJpiList (3/2) ≤ j) ∧
     selectIndexBy SpinParityWidth.width aJpiList (3/2)
        = selectIndexBy id (aJpiList.map SpinParityWidth.width) (3/2)) :=
  ⟨by decide, by norm_num, by norm_num [aJpiList, sumBy],
   C5_width_weighted_selection SpinParityWidth.width aJpiList (3/2)
     (by decide) (by norm_num) (by norm_num [aJpiList, sumBy])⟩

/-- Claim C1: for every continuum exit channel (fragment or gamma) with
bounds Emin ≤ Emax whose interpolant cache is either still unbuilt or holds
the faithfully built inverse-CDF table, every excitation energy Ex_final
produced by the phase-1 sampling in do_decay lies in the closed interval
[Emin, Emax]. -/
theorem C1_continuum_sampled_Ex_in_bounds
    (cf : FragmentContinuumExitChannel) (cg : GammaContinuumExitChannel)
    (Ex : ℚ) (tJ : Int) (P : Parity) (g : RngState)
    (hf : cf.Emin_ ≤ cf.Emax_) (hg : cg.Emin_ ≤ cg.Emax_)
    (hcf : cf.Ecdf_ = none ∨ cf.Ecdf_ = some (buildInvCdf
      (fun e => (cf.Epdf_ e).1) cf.Emin_ cf.Emax_ cf.gridN))
    (hcg : cg.Ecdf_ = none ∨ cg.Ecdf_ = some (buildInvCdf cg.Epdf_ cg.Emin_
      cg.Emax_ cg.gridN)) :
    (cf.Emin_ ≤ ((cf.do_decay Ex tJ P g).1).sampledEx ∧
      ((cf.do_decay Ex tJ P g).1).sampledEx ≤ cf.Emax_) ∧
    (cg.Emin_ ≤ ((cg.do_decay Ex tJ P g).1).sampledEx ∧
      ((cg.do_decay Ex tJ P g).1).sampledEx ≤ cg.Emax_) := by
  constructor
  · rw [fragCont_sampledEx cf Ex tJ P g]
    exact evalInvCdf_getD_bounds cf.Emin_ cf.Emax_
      (fun e => (cf.Epdf_ e).1) cf.gridN cf.Ecdf_ (g.stream g.pos) hf hcf
  · rw [gamCont_sampledEx cg Ex tJ P g]
    exact evalInvCdf_getD_bounds cg.Emin_ cg.Emax_ cg.Epdf_ cg.gridN
      cg.Ecdf_ (g.stream g.pos) hg hcg

theorem C1_witness :
    (aFragCont.Emin_ ≤ aFragCont.Emax_) ∧
    (aGamCont.Emin_ ≤ aGamCont.Emax_) ∧
    ((aFragCont.Emin_ ≤ ((aFragCont.do_decay 3 2 Parity.plus
        aRng).1).sampledEx ∧
      ((aFragCont.do_decay 3 2 Parity.plus aRng).1).sampledEx
        ≤ aFragCont.Emax_) ∧
     (aGamCont.Emin_ ≤ ((aGamCont.do_decay 3 2 Parity.plus
        aRng).1).sampledEx ∧
      ((aGamCont.do_decay 3 2 Parity.plus aRng).1).sampledEx
        ≤ aGamCont.Emax_)) :=
  ⟨by show (0:ℚ) ≤ 5; norm_num, by show (0:ℚ) ≤ 5; norm_num,
   C1_continuum_sampled_Ex_in_bounds aFragCont aGamCont 3 2 Parity.plus
     aRng (by show (0:ℚ) ≤ 5; norm_num) (by show (0:ℚ) ≤ 5; norm_num)
     (Or.inl rfl) (Or.inl rfl)⟩

/-- Claim C4: for every channel and every nuclear state, two calls to decay
made with identical random-generator state and identical channel state
(including the lazy caches) produce identical outputs: the same outcome
(the same emitted particle, residual nucleus and final (Ex, twoJ, Pi)), the
same updated channel object, the same advanced generator, and hence the same
number of consumed random draws. -/
theorem C4_decay_deterministic (c1 c2 : Channel) (Ex1 Ex2 : ℚ)
    (tJ1 tJ2 : Int) (P1 P2 : Parity) (g1 g2 : RngState)
    (hc : c1 = c2) (hEx : Ex1 = Ex2) (hJ : tJ1 = tJ2) (hP : P1 = P2)
    (hg : g1 = g2) :
    Channel.do_decay c1 Ex1 tJ1 P1 g1 = Channel.do_decay c2 Ex2 tJ2 P2 g2 ∧
    (Channel.do_decay c1 Ex1 tJ1 P1 g1).2.2.pos - g1.pos
      = (Channel.do_decay c2 Ex2 tJ2 P2 g2).2.2.pos - g2.pos := by
  subst hc; subst hEx; subst hJ; subst hP; subst hg
  exact ⟨rfl, rfl⟩

/-- A concrete discrete-gamma channel fixture. -/
def aGamDisc : GammaDiscreteExitChannel :=
  GammaDiscreteExitChannel.construct 1 aLevel aRes

theorem C4_witness :
    Channel.do_decay (Channel.gamDisc aGamDisc) 3 2 Parity.plus aRng
      = Channel.do_decay (Channel.gamDisc aGamDisc) 3 2 Parity.plus aRng ∧
    (Channel.do_decay (Channel.gamDisc aGamDisc) 3 2 Parity.plus
        aRng).2.2.pos - aRng.pos
      = (Channel.do_decay (Channel.gamDisc aGamDisc) 3 2 Parity.plus
        aRng).2.2.pos - aRng.pos :=
  C4_decay_deterministic (Channel.gamDisc aGamDisc)
    (Channel.gamDisc aGamDisc) 3 3 2 2 Parity.plus Parity.plus aRng aRng
    rfl rfl rfl rfl rfl

/-- Claim C6: for every continuum channel (fragment or gamma) on which the
skip_jpi_sampling flag is set, a call to do_decay succeeds leaving the spin
and parity outputs twoJ and Pi exactly equal to their pre-call values, while
the excitation energy Ex is still overwritten with the freshly sampled
phase-1 value. -/
theorem C6_skip_flag_preserves_jpi
    (cf : FragmentContinuumExitChannel) (cg : GammaContinuumExitChannel)
    (Ex : ℚ) (tJ : Int) (P : Parity) (g : RngState)
    (hf : cf.skip_jpi_sampling_ = true)
    (hg : cg.skip_jpi_sampling_ = true) :
    (∃ r, ((cf.do_decay Ex tJ P g).1).outcome = Except.ok r ∧
      r.twoJ = tJ ∧ r.pi = P ∧
      r.Ex = ((cf.do_decay Ex tJ P g).1).sampledEx) ∧
    (∃ r, ((cg.do_decay Ex tJ P g).1).outcome = Except.ok r ∧
      r.twoJ = tJ ∧ r.pi = P ∧
      r.Ex = ((cg.do_decay Ex tJ P g).1).sampledEx) := by
  constructor
  · rw [fragCont_step_eq cf Ex tJ P g, hf]
    exact continuumDecay_outcome_skip cf.fragment_.get_pid
      cf.fragment_.mass cf.Emin_ cf.Emax_ cf.gs_residue_
      (fun e => (cf.Epdf_ e).1) cf.jpiBuilder cf.gridN
      { ecdf := cf.Ecdf_, jpi := cf.jpi_widths_table_ } tJ P g
  · rw [gamCont_step_eq cg Ex tJ P g, hg]
    exact continuumDecay_outcome_skip PHOTON 0 cg.Emin_ cg.Emax_
      cg.gs_residue_ cg.Epdf_ cg.jpiBuilder cg.gridN
      { ecdf := cg.Ecdf_, jpi := cg.jpi_widths_table_ } tJ P g

/-- The fragment-continuum fixture with the testing-only skip flag set. -/
def aFragContSkip : FragmentContinuumExitChannel :=
  aFragCont.set_skip_jpi_sampling true

/-- The gamma-continuum fixture with the testing-only skip flag set. -/
def aGamContSkip : GammaContinuumExitChannel :=
  aGamCont.set_skip_jpi_sampling true

theorem C6_witness :
    (aFragContSkip.skip_jpi_sampling_ = true) ∧
    (aGamContSkip.skip_jpi_sampling_ = true) ∧
    ((∃ r, ((aFragContSkip.do_decay 3 2 Parity.plus aRng).1).outcome
        = Except.ok r ∧ r.twoJ = 2 ∧ r.pi = Parity.plus ∧
        r.Ex = ((aFragContSkip.do_decay 3 2 Parity.plus
          aRng).1).sampledEx) ∧
     (∃ r, ((aGamContSkip.do_decay 3 2 Parity.plus aRng).1).outcome
        = Except.ok r ∧ r.twoJ = 2 ∧ r.pi = Parity.plus ∧
        r.Ex = ((aGamContSkip.do_decay 3 2 Parity.plus
          aRng).1).sampledEx)) :=
  ⟨rfl, rfl,
   C6_skip_flag_preserves_jpi aFragContSkip aGamContSkip 3 2 Parity.plus
     aRng rfl rfl⟩

/-- Claim C7: for every continuum channel object (fragment or gamma) the
inverse-CDF interpolant and the spin-parity width table are each built at
most once, on the first do_decay call that needs them: after any call the
interpolant cache holds the previously cached table when one existed and the
freshly built one otherwise; likewise the spin-parity cache when phase 2
runs, while the skip flag leaves it untouched; and a second do_decay through
the updated channel object leaves both caches exactly as the first call left
them — the cached interpolant and table are reused, never rebuilt. -/
theorem C7_lazy_caches_built_once
    (cf : FragmentContinuumExitChannel) (cg : GammaContinuumExitChannel)
    (Ex Ex2 : ℚ) (tJ tJ2 : Int) (P P2 : Parity) (g g2 : RngState) :
    (((cf.do_decay Ex tJ P g).1).caches.ecdf
      = some (cf.Ecdf_.getD (buildInvCdf (fun e => (cf.Epdf_ e).1)
          cf.Emin_ cf.Emax_ cf.gridN))) ∧
    (cf.skip_jpi_sampling_ = false →
      ((cf.do_decay Ex tJ P g).1).caches.jpi
        = some (cf.jpi_widths_table_.getD (cf.jpiBuilder
            ((cf.do_decay Ex tJ P g).1).sampledEx))) ∧
    (cf.skip_jpi_sampling_ = true →
      ((cf.do_decay Ex tJ P g).1).caches.jpi = cf.jpi_widths_table_) ∧
    ((((cf.do_decay Ex tJ P g).2).do_decay Ex2 tJ2 P2 g2).1).caches.ecdf
      = ((cf.do_decay Ex tJ P g).1).caches.ecdf ∧
    ((((cf.do_decay Ex tJ P g).2).do_decay Ex2 tJ2 P2 g2).1).caches.jpi
      = ((cf.do_decay Ex tJ P g).1).caches.jpi ∧
    (((cg.do_decay Ex tJ P g).1).caches.ecdf
      = some (cg.Ecdf_.getD (buildInvCdf cg.Epdf_ cg.Emin_ cg.Emax_
          cg.gridN))) ∧
    (cg.skip_jpi_sampling_ = false →
      ((cg.do_decay Ex tJ P g).1).caches.jpi
        = some (cg.jpi_widths_table_.getD (cg.jpiBuilder
            ((cg.do_decay Ex tJ P g).1).sampledEx))) ∧
    (cg.skip_jpi_sampling_ = true →
      ((cg.do_decay Ex tJ P g).1).caches.jpi = cg.jpi_widths_table_) ∧
    ((((cg.do_decay Ex tJ P g).2).do_decay Ex2 tJ2 P2 g2).1).caches.ecdf
      = ((cg.do_decay Ex tJ P g).1).caches.ecdf ∧
    ((((cg.do_decay Ex tJ P g).2).do_decay Ex2 tJ2 P2 g2).1).caches.jpi
      = ((cg.do_decay Ex tJ P g).1).caches.jpi := by
  refine ⟨?_, ?_, ?_, ?_, ?_, ?_, ?_, ?_, ?_, ?_⟩
  · exact continuumDecay_caches_ecdf cf.fragment_.get_pid cf.fragment_.mass
      cf.Emin_ cf.Emax_ cf.gs_residue_ (fun e => (cf.Epdf_ e).1)
      cf.jpiBuilder cf.gridN cf.skip_jpi_sampling_
      { ecdf := cf.Ecdf_, jpi := cf.jpi_widths_table_ } tJ P g
  · intro h
    rw [fragCont_sampledEx cf Ex tJ P g, fragCont_step_eq cf Ex tJ P g,
      continuumDecay_caches_jpi, h]
    rfl
  · intro h
    rw [fragCont_step_eq cf Ex tJ P g, continuumDecay_caches_jpi, h]
    rfl
  · rw [fragCont_second_step_eq cf Ex Ex2 tJ tJ2 P P2 g g2,
      fragCont_step_eq cf Ex tJ P g]
    simp only [continuumDecay_caches_ecdf]
    rfl
  · rw [fragCont_second_step_eq cf Ex Ex2 tJ tJ2 P P2 g g2,
      fragCont_step_eq cf Ex tJ P g]
    simp only [continuumDecay_caches_jpi, continuumDecay_caches_ecdf,
      continuumDecay_sampledEx]
    cases h : cf.skip_jpi_sampling_ <;> simp [h]
  · exact continuumDecay_caches_ecdf PHOTON 0 cg.Emin_ cg.Emax_
      cg.gs_residue_ cg.Epdf_ cg.jpiBuilder cg.gridN cg.skip_jpi_sampling_
      { ecdf := cg.Ecdf_, jpi := cg.jpi_widths_table_ } tJ P g
  · intro h
    rw [gamCont_sampledEx cg Ex tJ P g, gamCont_step_eq cg Ex tJ P g,
      continuumDecay_caches_jpi, h]
    rfl
  · intro h
    rw [gamCont_step_eq cg Ex tJ P g, continuumDecay_caches_jpi, h]
    rfl
  · rw [gamCont_second_step_eq cg Ex Ex2 tJ tJ2 P P2 g g2,
      gamCont_step_eq cg Ex tJ P g]
    simp only [continuumDecay_caches_ecdf]
    rfl
  · rw [gamCont_second_step_eq cg Ex Ex2 tJ tJ2 P P2 g g2,
      gamCont_step_eq cg Ex tJ P g]
    simp only [continuumDecay_caches_jpi, continuumDecay_caches_ecdf,
      continuumDecay_sampledEx]
    cases h : cg.skip_jpi_sampling_ <;> simp [h]

theorem C7_witness :
    ((aFragCont.do_decay 3 2 Parity.plus aRng).1).caches.ecdf
      = some (aFragCont.Ecdf_.getD (buildInvCdf
          (fun e => (aFragCont.Epdf_ e).1) aFragCont.Emin_ aFragCont.Emax_
          aFragCont.gridN)) ∧
    aFragCont.skip_jpi_sampling_ = false ∧
    ((aFragCont.do_decay 3 2 Parity.plus aRng).1).caches.jpi
      = some (aFragCont.jpi_widths_table_.getD (aFragCont.jpiBuilder
          ((aFragCont.do_decay 3 2 Parity.plus aRng).1).sampledEx)) ∧
    ((((aFragCont.do_decay 3 2 Parity.plus aRng).2).do_decay 4 0
        Parity.minus aRng).1).caches.ecdf
      = ((aFragCont.do_decay 3 2 Parity.plus aRng).1).caches.ecdf ∧
    ((((aFragCont.do_decay 3 2 Parity.plus aRng).2).do_decay 4 0
        Parity.minus aRng).1).caches.jpi
      = ((aFragCont.do_decay 3 2 Parity.plus aRng).1).caches.jpi ∧
    ((aGamCont.do_decay 3 2 Parity.plus aRng).1).caches.ecdf
      = some (aGamCont.Ecdf_.getD (buildInvCdf aGamCont.Epdf_
          aGamCont.Emin_ aGamCont.Emax_ aGamCont.gridN)) ∧
    aGamCont.skip_jpi_sampling_ = false ∧
    ((aGamCont.do_decay 3 2 Parity.plus aRng).1).caches.jpi
      = some (aGamCont.jpi_widths_table_.getD (aGamCont.jpiBuilder
          ((aGamCont.do_decay 3 2 Parity.plus aRng).1).sampledEx)) ∧
    ((((aGamCont.do_decay 3 2 Parity.plus aRng).2).do_decay 4 0
        Parity.minus aRng).1).caches.ecdf
      = ((aGamCont.do_decay 3 2 Parity.plus aRng).1).caches.ecdf ∧
    ((((aGamCont.do_decay 3 2 Parity.plus aRng).2).do_decay 4 0
        Parity.minus aRng).1).caches.jpi
      = ((aGamCont.do_decay 3 2 Parity.plus aRng).1).caches.jpi := by
  obtain ⟨f1, f2, _f3, f4, f5, h1, h2, _h3, h4, h5⟩ :=
    C7_lazy_caches_built_once aFragCont aGamCont 3 4 2 0 Parity.plus
      Parity.minus aRng aRng
  exact ⟨f1, rfl, f2 rfl, f4, f5, h1, rfl, h2 rfl, h4, h5⟩

/-- Claim C8: for every continuum channel (fragment or gamma) with the
testing-only skip flag unset and the spin-parity cache still unbuilt, if
phase-2 spin-parity table construction at the sampled Ex_final yields zero
SpinParityWidth entries then do_decay fails with a NoAccessibleChannel error
instead of returning a state with a defaulted or undefined spin-parity. -/
theorem C8_empty_jpi_table_fails
    (cf : FragmentContinuumExitChannel) (cg : GammaContinuumExitChannel)
    (Ex : ℚ) (tJ : Int) (P : Parity) (g : RngState)
    (hsf : cf.skip_jpi_sampling_ = false)
    (htf : cf.jpi_widths_table_ = none)
    (hbf : cf.jpiBuilder ((cf.do_decay Ex tJ P g).1).sampledEx = [])
    (hsg : cg.skip_jpi_sampling_ = false)
    (htg : cg.jpi_widths_table_ = none)
    (hbg : cg.jpiBuilder ((cg.do_decay Ex tJ P g).1).sampledEx = []) :
    ((cf.do_decay Ex tJ P g).1).outcome
        = Except.error DecayError.NoAccessibleChannel ∧
    ((cg.do_decay Ex tJ P g).1).outcome
        = Except.error DecayError.NoAccessibleChannel := by
  constructor
  · rw [fragCont_sampledEx cf Ex tJ P g] at hbf
    rw [fragCont_step_eq cf Ex tJ P g, hsf]
    apply continuumDecay_outcome_empty
    simpa [htf] using hbf
  · rw [gamCont_sampledEx cg Ex tJ P g] at hbg
    rw [gamCont_step_eq cg Ex tJ P g, hsg]
    apply continuumDecay_outcome_empty
    simpa [htg] using hbg

/-- The fragment-continuum fixture whose table builder finds no accessible
spin-parities. -/
def aFragContEmpty : FragmentContinuumExitChannel :=
  FragmentContinuumExitChannel.construct 1 0 5 (fun e => (1, e)) aFrag aGs
    emptyBuilder 4

/-- The gamma-continuum fixture whose table builder finds no accessible
spin-parities. -/
def aGamContEmpty : GammaContinuumExitChannel :=
  GammaContinuumExitChannel.construct 1 0 5 (fun _ => 1) aGs emptyBuilder 4

theorem C8_witness :
    (aFragContEmpty.skip_jpi_sampling_ = false) ∧
    (aFragContEmpty.jpi_widths_table_ = none) ∧
    (aFragContEmpty.jpiBuilder ((aFragContEmpty.do_decay 3 2 Parity.plus
        aRng).1).sampledEx = []) ∧
    (aGamContEmpty.skip_jpi_sampling_ = false) ∧
    (aGamContEmpty.jpi_widths_table_ = none) ∧
    (aGamContEmpty.jpiBuilder ((aGamContEmpty.do_decay 3 2 Parity.plus
        aRng).1).sampledEx = []) ∧
    (((aFragContEmpty.do_decay 3 2 Parity.plus aRng).1).outcome
        = Except.error DecayError.NoAccessibleChannel ∧
     ((aGamContEmpty.do_decay 3 2 Parity.plus aRng).1).outcome
        = Except.error DecayError.NoAccessibleChannel) :=
  ⟨rfl, rfl, rfl, rfl, rfl, rfl,
   C8_empty_jpi_table_fails aFragContEmpty aGamContEmpty 3 2 Parity.plus
     aRng rfl rfl rfl rfl rfl rfl⟩

end Marley
